import Mathlib

/-
Verification of the bacterium registry of the AgeEnt repository
(src/simulation/simulationManager.js) against its specification.

The module state of simulationManager.js is modelled as an explicit record
SimState, and each exported function of the module becomes a pure function
on SimState.  The external physics engine (Rapier) is modelled by an Engine
record holding the rigid bodies and the colliders the module created, keyed
by the bacterium id: the module creates exactly one body and one collider
per bacterium and stores their handles next to the id, so a handle is
modelled by the id it was created for.  Positions, velocities and lengths
are modelled as exact rationals.  The engine step (world.step) is an
external computation and is modelled as an arbitrary per-body update
function supplied at each tick; engine removal failures (exceptions thrown
by removeCollider / removeRigidBody, caught per entry by the source) are
modelled by arbitrary failure predicates supplied to the operations.
-/

namespace AgeEnt

/-- Dynamic state of one rigid body in the external physics world: the
translation of its center and its linear velocity. -/
structure BodyState where
  x : ℚ
  y : ℚ
  vx : ℚ
  vy : ℚ
  deriving DecidableEq

/-- The rigid body returned for a missing handle lookup; never used on
reachable states, where every stored handle is live. -/
def defaultBody : BodyState := { x := 0, y := 0, vx := 0, vy := 0 }

/-- The external physics world: the rigid bodies and the capsule colliders
created by the module, keyed by bacterium id.  A collider is represented by
its current half height. -/
structure Engine where
  bodies : List (Nat × BodyState)
  colliders : List (Nat × ℚ)
  deriving DecidableEq

/-- One entry of the registry Map: the growth metadata stored with the
handles.  The rigid body and collider handles of entry id are modelled by
the id itself (createBacterium creates them 1:1 with the id). -/
structure Entry where
  length : ℚ
  deriving DecidableEq

/-- The module state of simulationManager.js: the initialized flag, the
isPaused flag, the rigidBodies Map (as an insertion-ordered association
list), the nextBodyId counter, and the world handle (none models a null or
undefined world). -/
structure SimState where
  inited : Bool
  isPaused : Bool
  rigidBodies : List (Nat × Entry)
  nextBodyId : Nat
  world : Option Engine
  deriving DecidableEq

/-- The module state before any call: initialized = false, isPaused = true,
empty Map, nextBodyId = 0, no world. -/
def initialState : SimState :=
  { inited := false, isPaused := true, rigidBodies := [], nextBodyId := 0,
    world := none }

/-- initSimulation: creates a fresh physics world and marks the simulation
initialized.  It does not touch the registry Map, the paused flag or the
id counter. -/
def initSimulation (s : SimState) : SimState :=
  { s with inited := true, world := some { bodies := [], colliders := [] } }

/-- createBacterium: guarded by the initialized flag and the world handle;
creates a dynamic rigid body at the given position, attaches a capsule
collider of half height radius * 2, sets the linear velocity to five times
the sampled Gaussian pair (the two samples of normalPolar are taken as
parameters vx, vy), stores the entry under a fresh id and returns the id.
On the guard failure it returns null (none) and changes nothing. -/
def createBacterium (s : SimState) (px py radius vx vy : ℚ) :
    Option Nat × SimState :=
  match s.inited, s.world with
  | true, some w =>
    let halfHeight := radius * 2
    let body : BodyState := { x := px, y := py, vx := vx * 5, vy := vy * 5 }
    let id := s.nextBodyId
    let w2 : Engine :=
      { bodies := w.bodies ++ [(id, body)]
        colliders := w.colliders ++ [(id, halfHeight)] }
    (some id,
      { s with world := some w2
               rigidBodies := s.rigidBodies ++ [(id, { length := halfHeight })]
               nextBodyId := id + 1 })
  | _, _ => (none, s)

/-- The per tick growth factor 1.001 of growBacteria. -/
def growthFactor : ℚ := 1001 / 1000

/-- Update the value stored under one key of an association list, leaving
every other pair untouched. -/
def updateVal (l : List (Nat × α)) (id : Nat) (f : α → α) : List (Nat × α) :=
  l.map (fun p => if p.1 == id then (p.1, f p.2) else p)

/-- One iteration of the growBacteria loop for the entry stored under id:
reads the current length, multiplies it by the growth factor, applies the
new half height to the collider handle of the entry, stores the new length
and zeroes the linear velocity of the rigid body handle. -/
def growOne (s : SimState) (id : Nat) : SimState :=
  match s.rigidBodies.lookup id with
  | none => s
  | some e =>
    let newLength := e.length * growthFactor
    { s with
      rigidBodies := updateVal s.rigidBodies id (fun _ => { length := newLength })
      world := s.world.map (fun w =>
        { bodies := updateVal w.bodies id (fun b => { b with vx := 0, vy := 0 })
          colliders := updateVal w.colliders id (fun _ => newLength) }) }

/-- growBacteria: runs the growth update over every entry of the Map, in
Map iteration order (insertion order). -/
def growBacteria (s : SimState) : SimState :=
  (s.rigidBodies.map Prod.fst).foldl growOne s

/-- world.step(): the external engine advances every rigid body; modelled
by an arbitrary per-body update supplied by the caller of the tick.  The
step never adds or removes bodies or colliders and never resizes a
collider. -/
def stepWorld (f : Nat → BodyState → BodyState) (s : SimState) : SimState :=
  { s with world := s.world.map (fun w =>
      { w with bodies := w.bodies.map (fun b => (b.1, f b.1 b.2)) }) }

/-- updateSimulation: a no-op unless initialized, with a live world and not
paused; otherwise grows every bacterium and then steps the world. -/
def updateSimulation (f : Nat → BodyState → BodyState) (s : SimState) :
    SimState :=
  match s.inited, s.world, s.isPaused with
  | true, some _, false => stepWorld f (growBacteria s)
  | _, _, _ => s

/-- world.removeCollider on the collider handle id. -/
def removeCollider (w : Engine) (id : Nat) : Engine :=
  { w with colliders := w.colliders.filter (fun c => !(c.1 == id)) }

/-- world.removeRigidBody on the body handle id. -/
def removeRigidBody (w : Engine) (id : Nat) : Engine :=
  { w with bodies := w.bodies.filter (fun b => !(b.1 == id)) }

/-- rigidBody.translation() for the body handle id. -/
def translationOf (w : Engine) (id : Nat) : BodyState :=
  (w.bodies.lookup id).getD defaultBody

/-- The eviction test of handleBoundaries:
position.x < 0 || position.x > width || position.y < 0 || position.y > height. -/
def outOfBounds (width height : ℚ) (b : BodyState) : Bool :=
  decide (b.x < 0) || decide (b.x > width) ||
    decide (b.y < 0) || decide (b.y > height)

/-- One iteration of the handleBoundaries loop for the entry stored under
id: reads the body translation; if it is out of bounds, removes the
collider, then the rigid body, then deletes the Map entry.  A removal call
of the engine may throw: failC id (respectively failB id) models
removeCollider (respectively removeRigidBody) throwing for this entry, in
which case the catch block swallows the error and the rest of the body of
the loop iteration is skipped. -/
def evictOne (width height : ℚ) (failC failB : Nat → Bool) (s : SimState)
    (id : Nat) : SimState :=
  match s.world with
  | none => s
  | some w =>
    let pos := translationOf w id
    if outOfBounds width height pos then
      if failC id then s
      else
        let w1 := removeCollider w id
        if failB id then { s with world := some w1 }
        else
          { s with world := some (removeRigidBody w1 id)
                   rigidBodies := s.rigidBodies.filter (fun p => !(p.1 == id)) }
    else s

/-- handleBoundaries: guarded by the initialized flag and the world handle;
iterates over a snapshot (Array.from) of the Map entries and evicts every
entry whose body center left the closed box. -/
def handleBoundaries (width height : ℚ) (failC failB : Nat → Bool)
    (s : SimState) : SimState :=
  match s.inited, s.world with
  | true, some _ =>
    (s.rigidBodies.map Prod.fst).foldl (evictOne width height failC failB) s
  | _, _ => s

/-- destroySimulation: guarded by the initialized flag and the world
handle; pauses, removes every collider of the world (failures caught per
collider), removes every rigid body stored in the Map (failures caught per
body), clears the Map, frees the world and resets the flags and the id
counter. -/
def destroySimulation (failC failB : Nat → Bool) (s : SimState) : SimState :=
  match s.inited, s.world with
  | true, some w =>
    let paused := { s with isPaused := true }
    let afterColliders : Engine :=
      { w with colliders := w.colliders.filter (fun c => failC c.1) }
    let afterBodies : Engine :=
      { afterColliders with bodies := afterColliders.bodies.filter (fun b =>
          !((s.rigidBodies.map Prod.fst).contains b.1) || failB b.1) }
    let cleared := { paused with rigidBodies := ([] : List (Nat × Entry))
                                 world := some afterBodies }
    { cleared with world := none, inited := false, isPaused := true,
                   nextBodyId := 0 }
  | _, _ => s

/-- pause: toggles the isPaused flag.  Note the source has no initialized
guard here. -/
def pause (s : SimState) : SimState := { s with isPaused := !s.isPaused }

/-- getRigidBodies: returns the Map of entries. -/
def getRigidBodies (s : SimState) : List (Nat × Entry) := s.rigidBodies

/-- The failure oracle of a run in which no engine removal call throws. -/
def noFail : Nat → Bool := fun _ => false

/-- The ids currently present in the registry Map, in insertion order. -/
def registryIds (s : SimState) : List Nat := s.rigidBodies.map Prod.fst

/-- The ids with a live rigid body in the external engine. -/
def engineBodyIds (s : SimState) : List Nat :=
  match s.world with
  | none => []
  | some w => w.bodies.map Prod.fst

/-- The ids with a live collider in the external engine. -/
def engineColliderIds (s : SimState) : List Nat :=
  match s.world with
  | none => []
  | some w => w.colliders.map Prod.fst

/-- The registry entry stored under id, if any. -/
def regLookup (s : SimState) (id : Nat) : Option Entry :=
  s.rigidBodies.lookup id

/-- The engine rigid body stored under id, if any. -/
def bodyLookup (s : SimState) (id : Nat) : Option BodyState :=
  match s.world with
  | none => none
  | some w => w.bodies.lookup id

/-- The engine collider half height stored under id, if any. -/
def colLookup (s : SimState) (id : Nat) : Option ℚ :=
  match s.world with
  | none => none
  | some w => w.colliders.lookup id

/-- The body center position the eviction test of handleBoundaries reads
for the entry stored under id. -/
def posOf (s : SimState) (id : Nat) : BodyState :=
  match s.world with
  | none => defaultBody
  | some w => translationOf w id

/-- One call of the public interface of the module.  The spawn parameters,
the engine step of a tick, and the engine failure oracles of an eviction or
teardown are data of the call. -/
inductive Op where
  | opInit
  | opSpawn (px py radius vx vy : ℚ)
  | opTick (f : Nat → BodyState → BodyState)
  | opBounds (width height : ℚ) (failC failB : Nat → Bool)
  | opPause
  | opStop (failC failB : Nat → Bool)

/-- Run one call against the state. -/
def runOp (s : SimState) : Op → SimState
  | .opInit => initSimulation s
  | .opSpawn px py r vx vy => (createBacterium s px py r vx vy).2
  | .opTick f => updateSimulation f s
  | .opBounds w h fC fB => handleBoundaries w h fC fB s
  | .opPause => pause s
  | .opStop fC fB => destroySimulation fC fB s

/-- Run a sequence of calls against the state. -/
def runOps (s : SimState) (ops : List Op) : SimState := ops.foldl runOp s

/-- Whether a call is a teardown. -/
def Op.isStop : Op → Bool
  | .opStop _ _ => true
  | _ => false

/-- Whether a call is an initialization. -/
def Op.isInit : Op → Bool
  | .opInit => true
  | _ => false

/-- Whether a call is a pause toggle. -/
def Op.isToggle : Op → Bool
  | .opPause => true
  | _ => false

/-- The id returned by a call, when the call is a successful spawn. -/
def spawnResult (s : SimState) (op : Op) : List Nat :=
  match op with
  | .opSpawn px py r vx vy => (createBacterium s px py r vx vy).1.toList
  | _ => []

/-- The ids returned by the successful spawns of a sequence of calls. -/
def spawnIds : SimState → List Op → List Nat
  | _, [] => []
  | s, op :: rest => spawnResult s op ++ spawnIds (runOp s op) rest

/-- The states reachable from the fresh module state by initialization
followed by any sequence of spawn, tick, boundary enforcement, pause and
teardown calls, re-initialization being allowed only on a torn down state.
Boundary evictions run with a non-throwing engine; teardown tolerates any
engine failures. -/
inductive Reachable : SimState → Prop
  | start : Reachable (initSimulation initialState)
  | restart {s} : Reachable s → s.inited = false → Reachable (initSimulation s)
  | spawn {s} (px py r vx vy : ℚ) :
      Reachable s → Reachable (createBacterium s px py r vx vy).2
  | tick {s} (f : Nat → BodyState → BodyState) :
      Reachable s → Reachable (updateSimulation f s)
  | bounds {s} (width height : ℚ) :
      Reachable s → Reachable (handleBoundaries width height noFail noFail s)
  | toggle {s} : Reachable s → Reachable (pause s)
  | teardown {s} (fC fB : Nat → Bool) :
      Reachable s → Reachable (destroySimulation fC fB s)

/-- Structural well-formedness of a state: the three id sets agree, the
registry keys are distinct and below the counter, and a torn down state has
an empty registry and no world. -/
def InvFull (s : SimState) : Prop :=
  registryIds s = engineBodyIds s ∧
  registryIds s = engineColliderIds s ∧
  (registryIds s).Nodup ∧
  (∀ i ∈ registryIds s, i < s.nextBodyId) ∧
  (s.inited = false → s.rigidBodies = [] ∧ s.world = none)

/-- The id agreement part of the well-formedness invariant. -/
def Inv (s : SimState) : Prop :=
  registryIds s = engineBodyIds s ∧
  registryIds s = engineColliderIds s ∧
  (registryIds s).Nodup
/-- Unfolding updateVal over a cons cell. -/
theorem updateVal_cons {α : Type} (x : Nat × α) (l : List (Nat × α))
    (id : Nat) (f : α → α) :
    updateVal (x :: l) id f =
      (if x.1 == id then (x.1, f x.2) else x) :: updateVal l id f := rfl

/-- Looking up a key survives a filter whose predicate depends only on the
key and keeps that key. -/
theorem lookup_filter_key {α : Type} (l : List (Nat × α)) (p : Nat → Bool)
    (k : Nat) (hk : p k = true) :
    (l.filter (fun x => p x.1)).lookup k = l.lookup k := by
  induction l with
  | nil => rfl
  | cons a l ih =>
    obtain ⟨k0, v0⟩ := a
    by_cases h : k = k0
    · subst h
      simp [List.filter_cons, hk, List.lookup_cons]
    · by_cases hp : p k0 = true <;>
        simp [List.filter_cons, hp, List.lookup_cons,
          beq_eq_false_iff_ne.mpr h, ih]

/-- Projecting the keys commutes with a filter whose predicate depends only
on the key. -/
theorem map_fst_filter_key {α : Type} (l : List (Nat × α)) (p : Nat → Bool) :
    (l.filter (fun x => p x.1)).map Prod.fst = (l.map Prod.fst).filter p := by
  induction l with
  | nil => rfl
  | cons a l ih =>
    by_cases hp : p a.1 = true <;> simp [List.filter_cons, hp, ih]

/-- Updating a key changes its looked up value by the update function. -/
theorem lookup_updateVal_eq {α : Type} (l : List (Nat × α)) (id : Nat)
    (f : α → α) : (updateVal l id f).lookup id = (l.lookup id).map f := by
  induction l with
  | nil => rfl
  | cons a l ih =>
    obtain ⟨k0, v0⟩ := a
    by_cases h : k0 = id
    · subst h
      simp [updateVal_cons, List.lookup_cons, ih]
    · simp [updateVal_cons, beq_eq_false_iff_ne.mpr h, List.lookup_cons,
        beq_eq_false_iff_ne.mpr (fun hh => h hh.symm), ih]

/-- Updating one key leaves the looked up value of any other key alone. -/
theorem lookup_updateVal_ne {α : Type} (l : List (Nat × α)) (id k : Nat)
    (f : α → α) (h : k ≠ id) :
    (updateVal l id f).lookup k = l.lookup k := by
  induction l with
  | nil => rfl
  | cons a l ih =>
    obtain ⟨k0, v0⟩ := a
    by_cases hk : k0 = id
    · subst hk
      simp [updateVal_cons, List.lookup_cons, beq_eq_false_iff_ne.mpr h, ih]
    · by_cases hq : k = k0
      · subst hq
        simp [updateVal_cons, beq_eq_false_iff_ne.mpr hk, List.lookup_cons]
      · simp [updateVal_cons, beq_eq_false_iff_ne.mpr hk, List.lookup_cons,
          beq_eq_false_iff_ne.mpr hq, ih]

/-- Updating a value does not change the key list. -/
theorem map_fst_updateVal {α : Type} (l : List (Nat × α)) (id : Nat)
    (f : α → α) : (updateVal l id f).map Prod.fst = l.map Prod.fst := by
  induction l with
  | nil => rfl
  | cons a l ih =>
    by_cases h : a.1 = id
    · simp [updateVal_cons, beq_iff_eq.mpr h, ih]
    · simp [updateVal_cons, beq_eq_false_iff_ne.mpr h, ih]

/-- Updates of two distinct keys commute. -/
theorem updateVal_comm {α : Type} (l : List (Nat × α)) (a b : Nat)
    (f g : α → α) (h : a ≠ b) :
    updateVal (updateVal l a f) b g = updateVal (updateVal l b g) a f := by
  unfold updateVal
  rw [List.map_map, List.map_map]
  congr 1
  funext p
  by_cases ha : p.1 = a
  · have hb : (p.1 == b) = false := beq_eq_false_iff_ne.mpr (ha ▸ h)
    simp [Function.comp, beq_iff_eq.mpr ha, hb]
  · by_cases hb : p.1 = b
    · have ha2 : (p.1 == a) = false :=
        beq_eq_false_iff_ne.mpr (hb ▸ fun hh => h hh.symm)
      simp [Function.comp, beq_iff_eq.mpr hb, ha2]
    · simp [Function.comp, beq_eq_false_iff_ne.mpr ha,
        beq_eq_false_iff_ne.mpr hb]

/-- A key with a looked up value occurs in the key list. -/
theorem lookup_some_mem_fst {α : Type} (l : List (Nat × α)) (k : Nat)
    (v : α) (h : l.lookup k = some v) : k ∈ l.map Prod.fst := by
  induction l with
  | nil => simp [List.lookup] at h
  | cons a l ih =>
    by_cases ha : k = a.1
    · simp [ha]
    · rw [show (a :: l) = ((a.1, a.2) :: l) by rfl, List.lookup_cons] at h
      rw [beq_eq_false_iff_ne.mpr ha] at h
      simp [ih h]

/-- A key in the key list has a looked up value. -/
theorem mem_fst_lookup_isSome {α : Type} (l : List (Nat × α)) (k : Nat)
    (h : k ∈ l.map Prod.fst) : (l.lookup k).isSome = true := by
  induction l with
  | nil => simp at h
  | cons a l ih =>
    by_cases ha : k = a.1
    · rw [show (a :: l) = ((a.1, a.2) :: l) by rfl, List.lookup_cons,
        beq_iff_eq.mpr ha]
      rfl
    · rw [show (a :: l) = ((a.1, a.2) :: l) by rfl, List.lookup_cons,
        beq_eq_false_iff_ne.mpr ha]
      rw [List.map_cons] at h
      rcases List.mem_cons.mp h with h1 | h1
      · exact absurd h1 ha
      · exact ih h1

/-- A tick is a no-op on an uninitialized state. -/
theorem updateSimulation_uninit (f : Nat → BodyState → BodyState)
    (s : SimState) (h : s.inited = false) : updateSimulation f s = s := by
  obtain ⟨i, p, rb, n, w⟩ := s
  cases i
  · cases w <;> cases p <;> rfl
  · exact absurd h (by simp)

/-- Boundary enforcement is a no-op on an uninitialized state. -/
theorem handleBoundaries_uninit (width height : ℚ) (fC fB : Nat → Bool)
    (s : SimState) (h : s.inited = false) :
    handleBoundaries width height fC fB s = s := by
  obtain ⟨i, p, rb, n, w⟩ := s
  cases i
  · cases w <;> rfl
  · exact absurd h (by simp)

/-- Teardown is a no-op on an uninitialized state. -/
theorem destroySimulation_uninit (fC fB : Nat → Bool) (s : SimState)
    (h : s.inited = false) : destroySimulation fC fB s = s := by
  obtain ⟨i, p, rb, n, w⟩ := s
  cases i
  · cases w <;> rfl
  · exact absurd h (by simp)

/-- A spawn on an uninitialized state returns null and changes nothing. -/
theorem createBacterium_uninit (s : SimState) (px py r vx vy : ℚ)
    (h : s.inited = false) : createBacterium s px py r vx vy = (none, s) := by
  obtain ⟨i, p, rb, n, w⟩ := s
  cases i
  · cases w <;> rfl
  · exact absurd h (by simp)

/-- Teardown on an initialized state with a live world yields the reset
state. -/
theorem destroySimulation_inited (fC fB : Nat → Bool) (s : SimState)
    (w : Engine) (hI : s.inited = true) (hw : s.world = some w) :
    destroySimulation fC fB s =
      { inited := false, isPaused := true, rigidBodies := [],
        nextBodyId := 0, world := none } := by
  obtain ⟨i, p, rb, n, wo⟩ := s
  cases i
  · exact absurd hI (by simp)
  · simp only at hw
    subst hw
    rfl

/-- Claim C3, counterexample: in the uninitialized initial state, a pause
call is not a no-op: it flips the observable paused flag from true to
false, so not every operation other than spawn leaves the state unchanged
while uninitialized. -/
theorem C3_pause_not_noop_uninit : pause initialState ≠ initialState := by
  decide

/-- Claim C3, amended: whenever the simulation is uninitialized, tick,
boundary enforcement, teardown and snapshot are no-ops that leave all
observable state unchanged and do not crash, and spawn reports
NotInitialized (returns null and adds no entry); pause, however, still
toggles the paused flag (without crashing) because the source guards every
operation except pause. -/
theorem C3_uninit_noops (s : SimState) (f : Nat → BodyState → BodyState)
    (width height : ℚ) (fC fB : Nat → Bool) (px py r vx vy : ℚ)
    (h : s.inited = false) :
    updateSimulation f s = s ∧
    handleBoundaries width height fC fB s = s ∧
    destroySimulation fC fB s = s ∧
    getRigidBodies s = s.rigidBodies ∧
    createBacterium s px py r vx vy = (none, s) ∧
    pause s = { s with isPaused := !s.isPaused } :=
  ⟨updateSimulation_uninit f s h,
   handleBoundaries_uninit width height fC fB s h,
   destroySimulation_uninit fC fB s h,
   rfl,
   createBacterium_uninit s px py r vx vy h,
   rfl⟩

/-- Claim C3, witness: the amended statement evaluated in the fresh
uninitialized state with concrete parameters. -/
theorem C3_uninit_noops_witness :
    updateSimulation (fun _ b => b) initialState = initialState ∧
    handleBoundaries 100 60 noFail noFail initialState = initialState ∧
    destroySimulation noFail noFail initialState = initialState ∧
    getRigidBodies initialState = initialState.rigidBodies ∧
    createBacterium initialState 5 5 1 0 0 = (none, initialState) ∧
    pause initialState =
      { initialState with isPaused := !initialState.isPaused } :=
  C3_uninit_noops initialState (fun _ b => b) 100 60 noFail noFail 5 5 1 0 0
    (by decide)

/-- Claim C7: teardown is idempotent: running it twice in a row, with any
engine failure patterns, yields the same state as running it once, and
running it on an uninitialized (never initialized or already torn down)
state leaves the state unchanged rather than faulting. -/
theorem C7_destroy_idempotent :
    (∀ (s : SimState) (fC fB gC gB : Nat → Bool),
      destroySimulation gC gB (destroySimulation fC fB s) =
        destroySimulation fC fB s) ∧
    (∀ (s : SimState) (fC fB : Nat → Bool), s.inited = false →
      destroySimulation fC fB s = s) := by
  constructor
  · intro s fC fB gC gB
    by_cases hI : s.inited = true
    · match hw : s.world with
      | some w =>
        rw [destroySimulation_inited fC fB s w hI hw]
        exact destroySimulation_uninit gC gB _ (by rfl)
      | none =>
        have h1 : destroySimulation fC fB s = s := by
          obtain ⟨i, p, rb, n, wo⟩ := s
          simp only at hw
          subst hw
          cases i <;> rfl
        rw [h1]
        exact h1 ▸ (by
          obtain ⟨i, p, rb, n, wo⟩ := s
          simp only at hw
          subst hw
          cases i <;> rfl)
    · have h0 : s.inited = false := by
        cases h : s.inited
        · rfl
        · exact absurd h hI
      rw [destroySimulation_uninit fC fB s h0,
        destroySimulation_uninit gC gB s h0]
  · intro s fC fB h
    exact destroySimulation_uninit fC fB s h

/-- Claim C7, witness: the uninitialized part of the idempotence statement
evaluated in the fresh state. -/
theorem C7_destroy_idempotent_witness :
    destroySimulation noFail noFail initialState = initialState :=
  C7_destroy_idempotent.2 initialState noFail noFail (by decide)

/-- A projection that every iteration of a fold preserves is preserved by
the whole fold. -/
theorem foldl_pres {δ : Type} (g : SimState → δ) (f : SimState → Nat → SimState)
    (hg : ∀ s id, g (f s id) = g s) :
    ∀ (ids : List Nat) (s : SimState), g (ids.foldl f s) = g s := by
  intro ids
  induction ids with
  | nil => intro s; rfl
  | cons a rest ih => intro s; rw [List.foldl_cons, ih, hg]

/-- One growth iteration does not touch the flags or the id counter. -/
theorem growOne_flags (s : SimState) (id : Nat) :
    (growOne s id).inited = s.inited ∧
    (growOne s id).isPaused = s.isPaused ∧
    (growOne s id).nextBodyId = s.nextBodyId := by
  unfold growOne
  cases s.rigidBodies.lookup id <;> exact ⟨rfl, rfl, rfl⟩

/-- One eviction iteration does not touch the flags or the id counter. -/
theorem evictOne_flags (width height : ℚ) (fC fB : Nat → Bool)
    (s : SimState) (id : Nat) :
    (evictOne width height fC fB s id).inited = s.inited ∧
    (evictOne width height fC fB s id).isPaused = s.isPaused ∧
    (evictOne width height fC fB s id).nextBodyId = s.nextBodyId := by
  unfold evictOne
  cases s.world
  · exact ⟨rfl, rfl, rfl⟩
  · dsimp only
    split_ifs <;> exact ⟨rfl, rfl, rfl⟩

/-- The growth pass does not touch the paused flag. -/
theorem growBacteria_isPaused (s : SimState) :
    (growBacteria s).isPaused = s.isPaused :=
  foldl_pres SimState.isPaused growOne (fun s id => (growOne_flags s id).2.1)
    (s.rigidBodies.map Prod.fst) s

/-- A tick does not touch the paused flag. -/
theorem updateSimulation_isPaused (f : Nat → BodyState → BodyState)
    (s : SimState) : (updateSimulation f s).isPaused = s.isPaused := by
  unfold updateSimulation
  obtain ⟨i, p, rb, n, w⟩ := s
  cases i <;> cases w <;> cases p <;>
    first
      | rfl
      | exact growBacteria_isPaused ⟨true, false, rb, n, some _⟩

/-- A spawn does not touch the paused flag. -/
theorem createBacterium_isPaused (s : SimState) (px py r vx vy : ℚ) :
    ((createBacterium s px py r vx vy).2).isPaused = s.isPaused := by
  unfold createBacterium
  obtain ⟨i, p, rb, n, w⟩ := s
  cases i <;> cases w <;> rfl

/-- Boundary enforcement does not touch the paused flag. -/
theorem handleBoundaries_isPaused (width height : ℚ) (fC fB : Nat → Bool)
    (s : SimState) :
    (handleBoundaries width height fC fB s).isPaused = s.isPaused := by
  unfold handleBoundaries
  obtain ⟨i, p, rb, n, w⟩ := s
  cases i <;> cases w <;>
    first
      | rfl
      | exact foldl_pres SimState.isPaused _
          (fun s id => (evictOne_flags width height fC fB s id).2.1) _ _

/-- A tick is a no-op while the simulation is paused. -/
theorem updateSimulation_paused (f : Nat → BodyState → BodyState)
    (s : SimState) (h : s.isPaused = true) : updateSimulation f s = s := by
  unfold updateSimulation
  obtain ⟨i, p, rb, n, w⟩ := s
  cases p
  · exact absurd h (by simp)
  · cases i <;> cases w <;> rfl

/-- Every call that is not a teardown flips the paused flag exactly when it
is a pause call. -/
theorem runOp_isPaused (s : SimState) (op : Op) (h : op.isStop = false) :
    (runOp s op).isPaused = (s.isPaused ^^ op.isToggle) := by
  cases op with
  | opInit => simp [runOp, initSimulation, Op.isToggle]
  | opSpawn px py r vx vy =>
    simp [runOp, Op.isToggle, createBacterium_isPaused]
  | opTick f => simp [runOp, Op.isToggle, updateSimulation_isPaused]
  | opBounds w h2 fC fB =>
    simp [runOp, Op.isToggle, handleBoundaries_isPaused]
  | opPause => simp [runOp, pause, Op.isToggle, Bool.xor_true]
  | opStop fC fB => exact absurd h (by simp [Op.isStop])

/-- Along a teardown-free run the paused flag equals its initial value
flipped once per pause call: its value is the initial value xor the parity
of the number of pause calls. -/
theorem runOps_isPaused_parity (ops : List Op) :
    ∀ s : SimState, (∀ op ∈ ops, op.isStop = false) →
    (runOps s ops).isPaused =
      (s.isPaused ^^ decide ((ops.countP (fun op => op.isToggle)) % 2 = 1)) := by
  induction ops with
  | nil => intro s _; simp [runOps]
  | cons op rest ih =>
    intro s h
    have hop : op.isStop = false := h op (List.mem_cons_self _ _)
    have hrest : ∀ o ∈ rest, o.isStop = false :=
      fun o ho => h o (List.mem_cons_of_mem _ ho)
    have step : runOps s (op :: rest) = runOps (runOp s op) rest := rfl
    rw [step, ih (runOp s op) hrest, runOp_isPaused s op hop,
      List.countP_cons]
    cases ht : op.isToggle
    · simp
    · have flip : ∀ cnt : Nat,
          decide ((cnt + 1) % 2 = 1) = !decide (cnt % 2 = 1) := by
        intro cnt
        rcases Nat.mod_two_eq_zero_or_one cnt with h2 | h2 <;>
          simp [Nat.add_mod, h2]
      simp only [if_true, flip]
      cases s.isPaused <;>
        cases decide ((rest.countP (fun op => op.isToggle)) % 2 = 1) <;> rfl

/-- Claim C10: the paused flag is true in the initial state; initSimulation
leaves the flag as it was (hence true when starting fresh); teardown of an
initialized simulation resets it to true; pause toggles rather than sets
the flag; a tick is a no-op while the flag is true; and along any
teardown-free run starting with the flag true, the flag stays true as long
as pause has been called an even number of times, so every tick is a no-op
until pause has been called an odd number of times. -/
theorem C10_starts_paused :
    initialState.isPaused = true ∧
    (∀ s : SimState, (initSimulation s).isPaused = s.isPaused) ∧
    (∀ (s : SimState) (fC fB : Nat → Bool) (w : Engine), s.inited = true →
      s.world = some w → (destroySimulation fC fB s).isPaused = true) ∧
    (∀ s : SimState, (pause s).isPaused = !s.isPaused) ∧
    (∀ (s : SimState) (f : Nat → BodyState → BodyState), s.isPaused = true →
      updateSimulation f s = s) ∧
    (∀ (s : SimState) (ops : List Op), s.isPaused = true →
      (∀ op ∈ ops, op.isStop = false) →
      (ops.countP (fun op => op.isToggle)) % 2 = 0 →
      (runOps s ops).isPaused = true) := by
  refine ⟨rfl, fun s => rfl, ?_, fun s => rfl, ?_, ?_⟩
  · intro s fC fB w hI hw
    rw [destroySimulation_inited fC fB s w hI hw]
  · intro s f h
    exact updateSimulation_paused f s h
  · intro s ops hp hstop heven
    rw [runOps_isPaused_parity ops s hstop, hp]
    have : decide ((ops.countP (fun op => op.isToggle)) % 2 = 1) = false := by
      simp only [decide_eq_false_iff_not]
      omega
    rw [this]
    rfl

/-- Claim C10, witness: the conditional parts of the statement evaluated on
a small concrete run: tick then pause then pause after initialization keeps
the flag true, and a tick in a paused state is the identity. -/
theorem C10_starts_paused_witness :
    (destroySimulation noFail noFail (initSimulation initialState)).isPaused
        = true ∧
    updateSimulation (fun _ b => b) (initSimulation initialState) =
      initSimulation initialState ∧
    (runOps (initSimulation initialState)
      [Op.opPause, Op.opTick (fun _ b => b), Op.opPause]).isPaused = true :=
  ⟨C10_starts_paused.2.2.1 (initSimulation initialState) noFail noFail
    { bodies := [], colliders := [] } (by decide) rfl,
   C10_starts_paused.2.2.2.2.1 (initSimulation initialState) (fun _ b => b)
    (by decide),
   C10_starts_paused.2.2.2.2.2 (initSimulation initialState)
    [Op.opPause, Op.opTick (fun _ b => b), Op.opPause] (by decide)
    (by intro op hop
        rcases List.mem_cons.mp hop with rfl | hop
        · rfl
        · rcases List.mem_cons.mp hop with rfl | hop
          · rfl
          · rcases List.mem_cons.mp hop with rfl | hop
            · rfl
            · simp at hop)
    (by rfl)⟩

/-- The growth pass does not touch the id counter. -/
theorem growBacteria_nextId (s : SimState) :
    (growBacteria s).nextBodyId = s.nextBodyId :=
  foldl_pres SimState.nextBodyId growOne
    (fun s id => (growOne_flags s id).2.2) (s.rigidBodies.map Prod.fst) s

/-- A tick does not touch the id counter. -/
theorem updateSimulation_nextId (f : Nat → BodyState → BodyState)
    (s : SimState) : (updateSimulation f s).nextBodyId = s.nextBodyId := by
  unfold updateSimulation
  obtain ⟨i, p, rb, n, w⟩ := s
  cases i <;> cases w <;> cases p <;>
    first
      | rfl
      | exact growBacteria_nextId ⟨true, false, rb, n, some _⟩

/-- Boundary enforcement does not touch the id counter. -/
theorem handleBoundaries_nextId (width height : ℚ) (fC fB : Nat → Bool)
    (s : SimState) :
    (handleBoundaries width height fC fB s).nextBodyId = s.nextBodyId := by
  unfold handleBoundaries
  obtain ⟨i, p, rb, n, w⟩ := s
  cases i <;> cases w <;>
    first
      | rfl
      | exact foldl_pres SimState.nextBodyId _
          (fun s id => (evictOne_flags width height fC fB s id).2.2) _ _

/-- A spawn either fails, changing nothing, or returns the current counter
value as the fresh id, appends the entry under that id to the registry and
to the engine, and bumps the counter by one. -/
theorem createBacterium_cases (s : SimState) (px py r vx vy : ℚ) :
    (createBacterium s px py r vx vy = (none, s)) ∨
    (∃ w : Engine, s.inited = true ∧ s.world = some w ∧
      createBacterium s px py r vx vy = (some s.nextBodyId,
        { s with
          world := some
            { bodies := w.bodies ++
                [(s.nextBodyId,
                  { x := px, y := py, vx := vx * 5, vy := vy * 5 })]
              colliders := w.colliders ++ [(s.nextBodyId, r * 2)] }
          rigidBodies := s.rigidBodies ++ [(s.nextBodyId, { length := r * 2 })]
          nextBodyId := s.nextBodyId + 1 })) := by
  obtain ⟨i, p, rb, n, w⟩ := s
  cases i
  · left
    cases w <;> rfl
  · cases w with
    | none => left; rfl
    | some w0 => right; exact ⟨w0, rfl, rfl, rfl⟩

/-- Every call that is not a teardown leaves the id counter unchanged or
increases it. -/
theorem runOp_nextId (s : SimState) (op : Op) (h : op.isStop = false) :
    s.nextBodyId ≤ (runOp s op).nextBodyId := by
  cases op with
  | opInit => exact le_refl _
  | opSpawn px py r vx vy =>
    rcases createBacterium_cases s px py r vx vy with hc | ⟨w0, _, _, hc⟩ <;>
      simp [runOp, hc]
  | opTick f => simp [runOp, updateSimulation_nextId]
  | opBounds w2 h2 fC fB => simp [runOp, handleBoundaries_nextId]
  | opPause => exact le_refl _
  | opStop fC fB => exact absurd h (by simp [Op.isStop])

/-- Every id returned by a spawn of a teardown-free run is at least the
counter value at the start of the run. -/
theorem spawnIds_lb (ops : List Op) :
    ∀ s : SimState, (∀ op ∈ ops, op.isStop = false) →
    ∀ i ∈ spawnIds s ops, s.nextBodyId ≤ i := by
  induction ops with
  | nil => intro s _ i hi; simp [spawnIds] at hi
  | cons op rest ih =>
    intro s h i hi
    have hop : op.isStop = false := h op (List.mem_cons_self _ _)
    have hrest : ∀ o ∈ rest, o.isStop = false :=
      fun o ho => h o (List.mem_cons_of_mem _ ho)
    rw [show spawnIds s (op :: rest) =
        spawnResult s op ++ spawnIds (runOp s op) rest from rfl] at hi
    rcases List.mem_append.mp hi with hi | hi
    · cases op with
      | opSpawn px py r vx vy =>
        rcases createBacterium_cases s px py r vx vy with hc | ⟨w0, _, _, hc⟩ <;>
          simp [spawnResult, hc] at hi
        exact le_of_eq hi.symm
      | opInit => simp [spawnResult] at hi
      | opTick f => simp [spawnResult] at hi
      | opBounds w2 h2 fC fB => simp [spawnResult] at hi
      | opPause => simp [spawnResult] at hi
      | opStop fC fB => simp [spawnResult] at hi
    · exact le_trans (runOp_nextId s op hop) (ih (runOp s op) hrest i hi)

/-- The ids of the successful spawns of a teardown-free run are strictly
increasing along the run. -/
theorem spawnIds_pairwise (ops : List Op) :
    ∀ s : SimState, (∀ op ∈ ops, op.isStop = false) →
    (spawnIds s ops).Pairwise (· < ·) := by
  induction ops with
  | nil => intro s _; simp [spawnIds]
  | cons op rest ih =>
    intro s h
    have hop : op.isStop = false := h op (List.mem_cons_self _ _)
    have hrest : ∀ o ∈ rest, o.isStop = false :=
      fun o ho => h o (List.mem_cons_of_mem _ ho)
    rw [show spawnIds s (op :: rest) =
        spawnResult s op ++ spawnIds (runOp s op) rest from rfl]
    cases op with
    | opSpawn px py r vx vy =>
      rcases createBacterium_cases s px py r vx vy with hc | ⟨w0, _, _, hc⟩
      · have h2 : runOp s (.opSpawn px py r vx vy) = s := by simp [runOp, hc]
        simp [spawnResult, hc, h2]
        exact ih s hrest
      · have h2 : (runOp s (.opSpawn px py r vx vy)).nextBodyId =
            s.nextBodyId + 1 := by simp [runOp, hc]
        simp only [spawnResult, hc, Option.toList_some, List.singleton_append]
        rw [List.pairwise_cons]
        constructor
        · intro j hj
          have := spawnIds_lb rest (runOp s (.opSpawn px py r vx vy)) hrest j hj
          omega
        · exact ih _ hrest
    | opInit =>
      simpa [spawnResult] using ih (runOp s .opInit) hrest
    | opTick f =>
      simpa [spawnResult] using ih (runOp s (.opTick f)) hrest
    | opBounds w2 h2 fC fB =>
      simpa [spawnResult] using ih (runOp s (.opBounds w2 h2 fC fB)) hrest
    | opPause =>
      simpa [spawnResult] using ih (runOp s .opPause) hrest
    | opStop fC fB => exact absurd hop (by simp [Op.isStop])

/-- Claim C4: along any teardown-free run, the sequence of ids returned by
the successful spawns is strictly increasing, hence the returned ids are
pairwise distinct and never reused. -/
theorem C4_spawn_ids_increasing (s : SimState) (ops : List Op)
    (h : ∀ op ∈ ops, op.isStop = false) :
    (spawnIds s ops).Pairwise (· < ·) ∧ (spawnIds s ops).Nodup :=
  ⟨spawnIds_pairwise ops s h,
   (spawnIds_pairwise ops s h).imp (fun hlt => Nat.ne_of_lt hlt)⟩

/-- Claim C4, witness: a concrete run of two spawns around a tick, a pause
and a boundary call, starting from a freshly initialized state. -/
theorem C4_spawn_ids_increasing_witness :
    (spawnIds (initSimulation initialState)
      [Op.opSpawn 1 1 1 0 0, Op.opTick (fun _ b => b), Op.opPause,
       Op.opBounds 100 60 noFail noFail,
       Op.opSpawn 2 2 1 0 0]).Pairwise (· < ·) ∧
    (spawnIds (initSimulation initialState)
      [Op.opSpawn 1 1 1 0 0, Op.opTick (fun _ b => b), Op.opPause,
       Op.opBounds 100 60 noFail noFail,
       Op.opSpawn 2 2 1 0 0]).Nodup :=
  C4_spawn_ids_increasing (initSimulation initialState) _
    (by
      intro op hop
      rcases List.mem_cons.mp hop with rfl | hop
      · rfl
      · rcases List.mem_cons.mp hop with rfl | hop
        · rfl
        · rcases List.mem_cons.mp hop with rfl | hop
          · rfl
          · rcases List.mem_cons.mp hop with rfl | hop
            · rfl
            · rcases List.mem_cons.mp hop with rfl | hop
              · rfl
              · simp at hop)

/-- A state reached by initializing the fresh module state. -/
def sampleInit : SimState := initSimulation initialState

/-- A state with one bacterium, id 0, spawned at position (1, 1) with
radius 1 (so length 2). -/
def sampleOne : SimState := (createBacterium sampleInit 1 1 1 0 0).2

/-- A state with two bacteria: id 0 at (1, 1) with length 2 and id 1 at
(50, 50) with length 4. -/
def sampleTwo : SimState := (createBacterium sampleOne 50 50 2 0 0).2

/-- Every call that is not an initialization leaves an uninitialized state
uninitialized. -/
theorem runOp_uninit (s : SimState) (op : Op) (hop : op.isInit = false)
    (h : s.inited = false) : (runOp s op).inited = false := by
  cases op with
  | opInit => exact absurd hop (by simp [Op.isInit])
  | opSpawn px py r vx vy =>
    rw [show runOp s (.opSpawn px py r vx vy) =
        (createBacterium s px py r vx vy).2 from rfl,
      createBacterium_uninit s px py r vx vy h]
    exact h
  | opTick f =>
    rw [show runOp s (.opTick f) = updateSimulation f s from rfl,
      updateSimulation_uninit f s h]
    exact h
  | opBounds w2 h2 fC fB =>
    rw [show runOp s (.opBounds w2 h2 fC fB) =
        handleBoundaries w2 h2 fC fB s from rfl,
      handleBoundaries_uninit w2 h2 fC fB s h]
    exact h
  | opPause => exact h
  | opStop fC fB =>
    rw [show runOp s (.opStop fC fB) = destroySimulation fC fB s from rfl,
      destroySimulation_uninit fC fB s h]
    exact h

/-- An initialization-free run leaves an uninitialized state
uninitialized. -/
theorem runOps_uninit (ops : List Op) :
    ∀ s : SimState, (∀ op ∈ ops, op.isInit = false) → s.inited = false →
    (runOps s ops).inited = false := by
  induction ops with
  | nil => intro s _ h; exact h
  | cons op rest ih =>
    intro s h hs
    exact ih (runOp s op)
      (fun o ho => h o (List.mem_cons_of_mem _ ho))
      (runOp_uninit s op (h op (List.mem_cons_self _ _)) hs)

/-- Claim C6: after teardown of an initialized simulation, the snapshot is
the empty mapping, and every subsequent spawn, after any further
initialization-free sequence of calls, fails with NotInitialized: it
returns null and leaves the state unchanged. -/
theorem C6_after_teardown (s : SimState) (fC fB : Nat → Bool) (w : Engine)
    (hI : s.inited = true) (hw : s.world = some w) :
    getRigidBodies (destroySimulation fC fB s) = [] ∧
    (∀ ops : List Op, (∀ op ∈ ops, op.isInit = false) →
      ∀ px py r vx vy : ℚ,
        createBacterium (runOps (destroySimulation fC fB s) ops)
            px py r vx vy =
          (none, runOps (destroySimulation fC fB s) ops)) := by
  constructor
  · rw [destroySimulation_inited fC fB s w hI hw]
    rfl
  · intro ops hops px py r vx vy
    refine createBacterium_uninit _ px py r vx vy
      (runOps_uninit ops _ hops ?_)
    rw [destroySimulation_inited fC fB s w hI hw]

/-- Claim C6, witness: tearing down a concrete one-bacterium simulation
empties the snapshot, and a spawn attempted after a further pause call
fails and changes nothing. -/
theorem C6_after_teardown_witness :
    getRigidBodies (destroySimulation noFail noFail sampleOne) = [] ∧
    createBacterium (runOps (destroySimulation noFail noFail sampleOne)
        [Op.opPause]) 3 3 1 0 0 =
      (none, runOps (destroySimulation noFail noFail sampleOne)
        [Op.opPause]) := by
  have h := C6_after_teardown sampleOne noFail noFail
    { bodies := [(0, { x := 1, y := 1, vx := 0 * 5, vy := 0 * 5 })]
      colliders := [(0, 1 * 2)] } (by decide) (by rfl)
  refine ⟨h.1, h.2 [Op.opPause] ?_ 3 3 1 0 0⟩
  intro op hop
  rcases List.mem_cons.mp hop with rfl | hop
  · rfl
  · simp at hop

/-- Whether the entry k survives the eviction loop once the ids in done
have been processed: it is removed exactly when it has been processed, its
original position is out of bounds, and neither of its two engine removal
calls failed. -/
def keepEntry (width height : ℚ) (fC fB : Nat → Bool) (w0 : Engine)
    (done : List Nat) (k : Nat) : Bool :=
  !(decide (k ∈ done) && outOfBounds width height (translationOf w0 k) &&
    !fC k && !fB k)

/-- Whether the collider of entry k survives the eviction loop once the
ids in done have been processed: it is removed exactly when the entry has
been processed, its original position is out of bounds, and the collider
removal call did not fail (the body removal failing later does not restore
it). -/
def keepCol (width height : ℚ) (fC : Nat → Bool) (w0 : Engine)
    (done : List Nat) (k : Nat) : Bool :=
  !(decide (k ∈ done) && outOfBounds width height (translationOf w0 k) &&
    !fC k)

/-- The state of the module part way through the eviction loop of
handleBoundaries, after the ids in done have been processed, starting from
a state s0 whose world was w0. -/
def evictedState (width height : ℚ) (fC fB : Nat → Bool) (s0 : SimState)
    (w0 : Engine) (done : List Nat) : SimState :=
  { s0 with
    rigidBodies := s0.rigidBodies.filter
      (fun p => keepEntry width height fC fB w0 done p.1)
    world := some
      { bodies := w0.bodies.filter
          (fun p => keepEntry width height fC fB w0 done p.1)
        colliders := w0.colliders.filter
          (fun p => keepCol width height fC w0 done p.1) } }

/-- An unprocessed id is kept so far. -/
theorem keepEntry_not_done (width height : ℚ) (fC fB : Nat → Bool)
    (w0 : Engine) (done : List Nat) (a : Nat) (ha : a ∉ done) :
    keepEntry width height fC fB w0 done a = true := by
  simp [keepEntry, ha]

/-- The collider of an unprocessed id is kept so far. -/
theorem keepCol_not_done (width height : ℚ) (fC : Nat → Bool)
    (w0 : Engine) (done : List Nat) (a : Nat) (ha : a ∉ done) :
    keepCol width height fC w0 done a = true := by
  simp [keepCol, ha]

/-- Processing one more id does not change the verdict on other ids. -/
theorem keepEntry_append_ne (width height : ℚ) (fC fB : Nat → Bool)
    (w0 : Engine) (done : List Nat) (a k : Nat) (hk : k ≠ a) :
    keepEntry width height fC fB w0 (done ++ [a]) k =
      keepEntry width height fC fB w0 done k := by
  have hm : (k ∈ done ++ [a]) ↔ (k ∈ done) := by simp [hk]
  simp [keepEntry, hm]

/-- Processing one more id does not change the collider verdict on other
ids. -/
theorem keepCol_append_ne (width height : ℚ) (fC : Nat → Bool)
    (w0 : Engine) (done : List Nat) (a k : Nat) (hk : k ≠ a) :
    keepCol width height fC w0 (done ++ [a]) k =
      keepCol width height fC w0 done k := by
  have hm : (k ∈ done ++ [a]) ↔ (k ∈ done) := by simp [hk]
  simp [keepCol, hm]

/-- The verdict on an id right after it has been processed. -/
theorem keepEntry_append_self (width height : ℚ) (fC fB : Nat → Bool)
    (w0 : Engine) (done : List Nat) (a : Nat) :
    keepEntry width height fC fB w0 (done ++ [a]) a =
      !(outOfBounds width height (translationOf w0 a) && !fC a && !fB a) := by
  simp [keepEntry]

/-- The collider verdict on an id right after it has been processed. -/
theorem keepCol_append_self (width height : ℚ) (fC : Nat → Bool)
    (w0 : Engine) (done : List Nat) (a : Nat) :
    keepCol width height fC w0 (done ++ [a]) a =
      !(outOfBounds width height (translationOf w0 a) && !fC a) := by
  simp [keepCol]

/-- Two filters by key predicates agree when the predicates agree. -/
theorem filter_key_congr {α : Type} (l : List (Nat × α)) (p q : Nat → Bool)
    (h : ∀ k, p k = q k) :
    l.filter (fun x => p x.1) = l.filter (fun x => q x.1) :=
  List.filter_congr (fun x _ => h x.1)

/-- Removing the pairs of one further key from a filtered association list
is the same as filtering by the predicate that also drops that key. -/
theorem filter_key_remove {α : Type} (l : List (Nat × α)) (p q : Nat → Bool)
    (a : Nat) (ha : q a = false) (h : ∀ k, k ≠ a → p k = q k) :
    (l.filter (fun x => p x.1)).filter (fun x => !(x.1 == a)) =
      l.filter (fun x => q x.1) := by
  rw [List.filter_filter]
  refine List.filter_congr ?_
  intro x _
  by_cases hk : x.1 = a
  · rw [hk, ha]
    simp
  · rw [h x.1 hk, show (x.1 == a) = false from beq_eq_false_iff_ne.mpr hk]
    simp

/-- One iteration of the eviction loop on an unprocessed id advances the
part way state by exactly that id. -/
theorem evictOne_evicted (width height : ℚ) (fC fB : Nat → Bool)
    (s0 : SimState) (w0 : Engine) (done : List Nat) (a : Nat)
    (ha : a ∉ done) :
    evictOne width height fC fB
        (evictedState width height fC fB s0 w0 done) a =
      evictedState width height fC fB s0 w0 (done ++ [a]) := by
  have hka := keepEntry_not_done width height fC fB w0 done a ha
  have hkc := keepCol_not_done width height fC w0 done a ha
  have hpos : translationOf
      { bodies := w0.bodies.filter
          (fun p => keepEntry width height fC fB w0 done p.1)
        colliders := w0.colliders.filter
          (fun p => keepCol width height fC w0 done p.1) } a =
      translationOf w0 a := by
    show ((w0.bodies.filter
        (fun p => keepEntry width height fC fB w0 done p.1)).lookup a).getD
          defaultBody =
      (w0.bodies.lookup a).getD defaultBody
    rw [lookup_filter_key w0.bodies _ a hka]
  cases hout : outOfBounds width height (translationOf w0 a) with
  | false =>
    have hpt : ∀ k, keepEntry width height fC fB w0 (done ++ [a]) k =
        keepEntry width height fC fB w0 done k := by
      intro k
      by_cases hk : k = a
      · subst hk
        rw [keepEntry_append_self width height fC fB w0 done k, hout, hka]
        rfl
      · exact keepEntry_append_ne width height fC fB w0 done a k hk
    have hptC : ∀ k, keepCol width height fC w0 (done ++ [a]) k =
        keepCol width height fC w0 done k := by
      intro k
      by_cases hk : k = a
      · subst hk
        rw [keepCol_append_self width height fC w0 done k, hout, hkc]
        rfl
      · exact keepCol_append_ne width height fC w0 done a k hk
    have hR := filter_key_congr s0.rigidBodies _ _ hpt
    have hB := filter_key_congr w0.bodies _ _ hpt
    have hC := filter_key_congr w0.colliders _ _ hptC
    simp [evictOne, evictedState, hpos, hout, hR, hB, hC]
  | true =>
    cases hfC : fC a with
    | true =>
      have hpt : ∀ k, keepEntry width height fC fB w0 (done ++ [a]) k =
          keepEntry width height fC fB w0 done k := by
        intro k
        by_cases hk : k = a
        · subst hk
          rw [keepEntry_append_self width height fC fB w0 done k, hout, hfC,
            hka]
          rfl
        · exact keepEntry_append_ne width height fC fB w0 done a k hk
      have hptC : ∀ k, keepCol width height fC w0 (done ++ [a]) k =
          keepCol width height fC w0 done k := by
        intro k
        by_cases hk : k = a
        · subst hk
          rw [keepCol_append_self width height fC w0 done k, hout, hfC, hkc]
          rfl
        · exact keepCol_append_ne width height fC w0 done a k hk
      have hR := filter_key_congr s0.rigidBodies _ _ hpt
      have hB := filter_key_congr w0.bodies _ _ hpt
      have hC := filter_key_congr w0.colliders _ _ hptC
      simp [evictOne, evictedState, hpos, hout, hfC, hR, hB, hC]
    | false =>
      cases hfB : fB a with
      | true =>
        have hpt : ∀ k, keepEntry width height fC fB w0 (done ++ [a]) k =
            keepEntry width height fC fB w0 done k := by
          intro k
          by_cases hk : k = a
          · subst hk
            rw [keepEntry_append_self width height fC fB w0 done k, hout, hfC,
              hfB, hka]
            rfl
          · exact keepEntry_append_ne width height fC fB w0 done a k hk
        have hCa : keepCol width height fC w0 (done ++ [a]) a = false := by
          rw [keepCol_append_self width height fC w0 done a, hout, hfC]
          rfl
        have hR := filter_key_congr s0.rigidBodies _ _ hpt
        have hB := filter_key_congr w0.bodies _ _ hpt
        have hC := filter_key_remove w0.colliders _ _ a hCa
          (fun k hk => (keepCol_append_ne width height fC w0 done a k hk).symm)
        simp [evictOne, evictedState, removeCollider, hpos, hout, hfC, hfB,
          hR, hB, hC]
      | false =>
        have hEa : keepEntry width height fC fB w0 (done ++ [a]) a = false := by
          rw [keepEntry_append_self width height fC fB w0 done a, hout, hfC,
            hfB]
          rfl
        have hCa : keepCol width height fC w0 (done ++ [a]) a = false := by
          rw [keepCol_append_self width height fC w0 done a, hout, hfC]
          rfl
        have hR := filter_key_remove s0.rigidBodies _ _ a hEa
          (fun k hk =>
            (keepEntry_append_ne width height fC fB w0 done a k hk).symm)
        have hB := filter_key_remove w0.bodies _ _ a hEa
          (fun k hk =>
            (keepEntry_append_ne width height fC fB w0 done a k hk).symm)
        have hC := filter_key_remove w0.colliders _ _ a hCa
          (fun k hk => (keepCol_append_ne width height fC w0 done a k hk).symm)
        simp [evictOne, evictedState, removeCollider, removeRigidBody, hpos,
          hout, hfC, hfB, hR, hB, hC]

/-- Running the eviction loop over the unprocessed suffix of a run of
distinct ids finishes the processing. -/
theorem foldl_evictOne (width height : ℚ) (fC fB : Nat → Bool)
    (s0 : SimState) (w0 : Engine) :
    ∀ rest done : List Nat, (done ++ rest).Nodup →
    rest.foldl (evictOne width height fC fB)
        (evictedState width height fC fB s0 w0 done) =
      evictedState width height fC fB s0 w0 (done ++ rest) := by
  intro rest
  induction rest with
  | nil =>
    intro done _
    simp
  | cons a rest' ih =>
    intro done hnd
    have ha : a ∉ done := by
      intro hmem
      exact List.disjoint_of_nodup_append hnd hmem (List.mem_cons_self a rest')
    rw [List.foldl_cons, evictOne_evicted width height fC fB s0 w0 done a ha]
    have h2 := ih (done ++ [a]) (by simpa [List.append_assoc] using hnd)
    rw [h2]
    simp [List.append_assoc]

/-- handleBoundaries on an initialized state with distinct registry ids: it
filters the registry, the bodies and the colliders by the eviction verdict
computed from each body position as it was when the call started. -/
theorem handleBoundaries_eq (width height : ℚ) (fC fB : Nat → Bool)
    (s0 : SimState) (w0 : Engine) (hI : s0.inited = true)
    (hw : s0.world = some w0) (hnd : (registryIds s0).Nodup) :
    handleBoundaries width height fC fB s0 =
      evictedState width height fC fB s0 w0 (registryIds s0) := by
  have h0 : evictedState width height fC fB s0 w0 [] = s0 := by
    obtain ⟨i, p, rb, n, wo⟩ := s0
    simp only at hw
    subst hw
    simp [evictedState, keepEntry, keepCol]
  have hfold := foldl_evictOne width height fC fB s0 w0 (registryIds s0) []
    (by simpa using hnd)
  rw [List.nil_append] at hfold
  rw [h0] at hfold
  obtain ⟨i, p, rb, n, wo⟩ := s0
  simp only at hw hI
  subst hw
  cases i
  · exact absurd hI (by simp)
  · exact hfold

/-- The eviction test as a proposition on the four coordinates. -/
theorem outOfBounds_iff (width height : ℚ) (b : BodyState) :
    outOfBounds width height b = true ↔
      (b.x < 0 ∨ b.x > width ∨ b.y < 0 ∨ b.y > height) := by
  simp [outOfBounds, or_assoc]

/-- Claim C2: on an initialized state, a boundary enforcement call removes
an entry exactly when the body center of the entry lies outside the closed
box from (0, 0) to (width, height); every entry whose center is in the
closed box (in particular every entry strictly inside) is still present,
with its metadata unchanged, after the call. -/
theorem C2_boundaries_remove_iff (s : SimState) (width height : ℚ)
    (w : Engine) (id : Nat) (e : Entry) (hI : s.inited = true)
    (hw : s.world = some w) (hnd : (registryIds s).Nodup)
    (hmem : (id, e) ∈ s.rigidBodies) :
    (id ∉ registryIds (handleBoundaries width height noFail noFail s) ↔
      ((posOf s id).x < 0 ∨ (posOf s id).x > width ∨
        (posOf s id).y < 0 ∨ (posOf s id).y > height)) ∧
    ((id, e) ∈ (handleBoundaries width height noFail noFail s).rigidBodies ↔
      ¬((posOf s id).x < 0 ∨ (posOf s id).x > width ∨
        (posOf s id).y < 0 ∨ (posOf s id).y > height)) := by
  have hid : id ∈ registryIds s := by
    have := List.mem_map_of_mem Prod.fst hmem
    simpa [registryIds] using this
  have hposOf : posOf s id = translationOf w id := by
    unfold posOf
    rw [hw]
  have hkeep : keepEntry width height noFail noFail w (registryIds s) id =
      !(outOfBounds width height (translationOf w id)) := by
    simp [keepEntry, noFail, hid]
  rw [handleBoundaries_eq width height noFail noFail s w hI hw hnd]
  constructor
  · rw [show registryIds (evictedState width height noFail noFail s w
        (registryIds s)) =
      (registryIds s).filter
        (fun k => keepEntry width height noFail noFail w (registryIds s) k)
      from map_fst_filter_key s.rigidBodies _]
    rw [hposOf, ← outOfBounds_iff]
    constructor
    · intro hnot
      cases hb : outOfBounds width height (translationOf w id)
      · exact absurd (List.mem_filter.mpr ⟨hid, by rw [hkeep, hb]; rfl⟩) hnot
      · rfl
    · intro hb hmemf
      have := (List.mem_filter.mp hmemf).2
      rw [hkeep, hb] at this
      exact absurd this (by simp)
  · rw [show (evictedState width height noFail noFail s w
        (registryIds s)).rigidBodies =
      s.rigidBodies.filter
        (fun p => keepEntry width height noFail noFail w (registryIds s) p.1)
      from rfl]
    rw [hposOf, ← outOfBounds_iff]
    constructor
    · intro hmemf hb
      have := (List.mem_filter.mp hmemf).2
      rw [hkeep, hb] at this
      exact absurd this (by simp)
    · intro hb
      refine List.mem_filter.mpr ⟨hmem, ?_⟩
      rw [hkeep]
      cases hb2 : outOfBounds width height (translationOf w id)
      · rfl
      · exact absurd (hb2 ▸ rfl) hb

/-- A state with two bacteria in which id 1 sits outside a 100 by 60 box:
id 0 at (1, 1), id 1 at (150, 5). -/
def sampleOut : SimState := (createBacterium sampleOne 150 5 1 0 0).2

/-- Claim C2, witness: in the concrete state sampleOut with box 100 by 60,
entry 1 at (150, 5) is removed and entry 0 at (1, 1) is kept, as the iff
statements instantiate. -/
theorem C2_boundaries_remove_iff_witness :
    ((1 ∉ registryIds (handleBoundaries 100 60 noFail noFail sampleOut) ↔
      ((posOf sampleOut 1).x < 0 ∨ (posOf sampleOut 1).x > 100 ∨
        (posOf sampleOut 1).y < 0 ∨ (posOf sampleOut 1).y > 60)) ∧
    ((1, { length := 1 * 2 }) ∈
        (handleBoundaries 100 60 noFail noFail sampleOut).rigidBodies ↔
      ¬((posOf sampleOut 1).x < 0 ∨ (posOf sampleOut 1).x > 100 ∨
        (posOf sampleOut 1).y < 0 ∨ (posOf sampleOut 1).y > 60))) ∧
    ((posOf sampleOut 1).x > 100) :=
  ⟨C2_boundaries_remove_iff sampleOut 100 60
    { bodies := [(0, { x := 1, y := 1, vx := 0 * 5, vy := 0 * 5 }),
                 (1, { x := 150, y := 5, vx := 0 * 5, vy := 0 * 5 })]
      colliders := [(0, 1 * 2), (1, 1 * 2)] } 1 { length := 1 * 2 }
    (by decide) (by rfl) (by decide)
    (List.mem_cons_of_mem _ (List.mem_cons_self _ _)),
   by decide⟩

/-- Claim C8: engine removal failures during boundary eviction are caught
per entry: every out of bounds entry whose own removal calls do not fail is
still evicted, every in bounds entry is untouched, and the call returns
normally whatever the failure pattern; and a teardown reaches the same
fully torn down state under any failure pattern as under none, because the
per entry catches let it reach the final world free. -/
theorem C8_partial_failure (s : SimState) (width height : ℚ)
    (fC fB : Nat → Bool) (w : Engine) (hI : s.inited = true)
    (hw : s.world = some w) (hnd : (registryIds s).Nodup) :
    (∀ id, id ∈ registryIds s →
      outOfBounds width height (posOf s id) = true → fC id = false →
      fB id = false →
      id ∉ registryIds (handleBoundaries width height fC fB s)) ∧
    (∀ id e, (id, e) ∈ s.rigidBodies →
      outOfBounds width height (posOf s id) = false →
      (id, e) ∈ (handleBoundaries width height fC fB s).rigidBodies) ∧
    (∀ (t : SimState) (gC gB : Nat → Bool),
      destroySimulation gC gB t = destroySimulation noFail noFail t) := by
  have hposOf : ∀ id, posOf s id = translationOf w id := by
    intro id
    unfold posOf
    rw [hw]
  rw [handleBoundaries_eq width height fC fB s w hI hw hnd]
  refine ⟨?_, ?_, ?_⟩
  · intro id hid hout hfC hfB
    have hkeep : keepEntry width height fC fB w (registryIds s) id = false := by
      rw [hposOf id] at hout
      simp [keepEntry, hid, hout, hfC, hfB]
    rw [show registryIds (evictedState width height fC fB s w
        (registryIds s)) =
      (registryIds s).filter
        (fun k => keepEntry width height fC fB w (registryIds s) k)
      from map_fst_filter_key s.rigidBodies _]
    intro hmemf
    have := (List.mem_filter.mp hmemf).2
    rw [hkeep] at this
    exact absurd this (by simp)
  · intro id e hmem hout
    have hkeep : keepEntry width height fC fB w (registryIds s) id = true := by
      rw [hposOf id] at hout
      simp [keepEntry, hout]
    exact List.mem_filter.mpr ⟨hmem, hkeep⟩
  · intro t gC gB
    obtain ⟨i, p, rb, n, wo⟩ := t
    cases i <;> cases wo <;> rfl

/-- A state with three bacteria: id 0 at (1, 1) in bounds, id 1 at
(150, 5) and id 2 at (200, 5) both outside a 100 by 60 box. -/
def sampleTwoOut : SimState := (createBacterium sampleOut 200 5 1 0 0).2

/-- Claim C8, witness: with a failure pattern in which the collider removal
of entry 1 throws, the eviction of the other out of bounds entry 2 still
happens, the in bounds entry 0 is untouched, and a concrete teardown is
insensitive to the failure pattern. -/
theorem C8_partial_failure_witness :
    (2 ∉ registryIds
      (handleBoundaries 100 60 (fun id => id == 1) noFail sampleTwoOut)) ∧
    ((0, { length := 1 * 2 }) ∈
      (handleBoundaries 100 60 (fun id => id == 1) noFail
        sampleTwoOut).rigidBodies) ∧
    (destroySimulation (fun id => id == 1) noFail sampleOne =
      destroySimulation noFail noFail sampleOne) := by
  have h := C8_partial_failure sampleTwoOut 100 60 (fun id => id == 1) noFail
    { bodies := [(0, { x := 1, y := 1, vx := 0 * 5, vy := 0 * 5 }),
                 (1, { x := 150, y := 5, vx := 0 * 5, vy := 0 * 5 }),
                 (2, { x := 200, y := 5, vx := 0 * 5, vy := 0 * 5 })]
      colliders := [(0, 1 * 2), (1, 1 * 2), (2, 1 * 2)] }
    (by decide) (by rfl) (by decide)
  exact ⟨h.1 2 (by decide) (by decide) (by decide) (by decide),
    h.2.1 0 { length := 1 * 2 } (List.mem_cons_self _ _) (by decide),
    h.2.2 sampleOne (fun id => id == 1) noFail⟩

/-- One growth iteration does not change any of the three id lists. -/
theorem growOne_ids (s : SimState) (id : Nat) :
    registryIds (growOne s id) = registryIds s ∧
    engineBodyIds (growOne s id) = engineBodyIds s ∧
    engineColliderIds (growOne s id) = engineColliderIds s := by
  unfold growOne
  cases h : s.rigidBodies.lookup id with
  | none => exact ⟨rfl, rfl, rfl⟩
  | some e =>
    refine ⟨?_, ?_, ?_⟩
    · simp [registryIds, map_fst_updateVal]
    · unfold engineBodyIds
      cases s.world <;> simp [map_fst_updateVal]
    · unfold engineColliderIds
      cases s.world <;> simp [map_fst_updateVal]

/-- The engine step does not change any of the three id lists. -/
theorem stepWorld_ids (f : Nat → BodyState → BodyState) (s : SimState) :
    registryIds (stepWorld f s) = registryIds s ∧
    engineBodyIds (stepWorld f s) = engineBodyIds s ∧
    engineColliderIds (stepWorld f s) = engineColliderIds s := by
  refine ⟨rfl, ?_, ?_⟩
  · unfold stepWorld engineBodyIds
    cases s.world <;> simp [Function.comp]
  · unfold stepWorld engineColliderIds
    cases s.world <;> simp

/-- The growth pass does not change any of the three id lists. -/
theorem growBacteria_ids (s : SimState) :
    registryIds (growBacteria s) = registryIds s ∧
    engineBodyIds (growBacteria s) = engineBodyIds s ∧
    engineColliderIds (growBacteria s) = engineColliderIds s :=
  ⟨foldl_pres registryIds growOne (fun s id => (growOne_ids s id).1)
      (s.rigidBodies.map Prod.fst) s,
   foldl_pres engineBodyIds growOne (fun s id => (growOne_ids s id).2.1)
      (s.rigidBodies.map Prod.fst) s,
   foldl_pres engineColliderIds growOne (fun s id => (growOne_ids s id).2.2)
      (s.rigidBodies.map Prod.fst) s⟩

/-- The growth pass does not change the initialized flag. -/
theorem growBacteria_inited (s : SimState) :
    (growBacteria s).inited = s.inited :=
  foldl_pres SimState.inited growOne (fun s id => (growOne_flags s id).1)
    (s.rigidBodies.map Prod.fst) s

/-- A tick either leaves the state alone (guard or pause) or grows and
steps an initialized, live, unpaused state. -/
theorem updateSimulation_cases (f : Nat → BodyState → BodyState)
    (s : SimState) :
    updateSimulation f s = s ∨
    (s.inited = true ∧ s.isPaused = false ∧ s.world.isSome = true ∧
      updateSimulation f s = stepWorld f (growBacteria s)) := by
  obtain ⟨i, p, rb, n, w⟩ := s
  cases i
  · left
    cases w <;> cases p <;> rfl
  · cases w with
    | none => left; cases p <;> rfl
    | some w0 =>
      cases p
      · right
        exact ⟨rfl, rfl, rfl, rfl⟩
      · left
        rfl

/-- With no engine failures the entry verdict and the collider verdict of
the eviction loop coincide. -/
theorem keepEntry_noFail (width height : ℚ) (w0 : Engine) (done : List Nat)
    (k : Nat) :
    keepEntry width height noFail noFail w0 done k =
      keepCol width height noFail w0 done k := by
  simp [keepEntry, keepCol, noFail]

/-- Every reachable state is well formed: the registry ids, the engine body
ids and the engine collider ids are the same list, the registry keys are
distinct and below the id counter, and a torn down state is empty. -/
theorem reachable_invFull (s : SimState) (h : Reachable s) : InvFull s := by
  induction h with
  | start =>
    exact ⟨rfl, rfl, List.nodup_nil, by simp [registryIds, initSimulation,
      initialState], fun h => nomatch h⟩
  | restart hreach huninit ih =>
    rename_i s0
    obtain ⟨hrb, hwo⟩ := ih.2.2.2.2 huninit
    obtain ⟨i, p, rb, n, wo⟩ := s0
    simp only at hrb hwo
    subst hrb
    subst hwo
    exact ⟨rfl, rfl, List.nodup_nil, by simp [registryIds, initSimulation],
      fun h => nomatch h⟩
  | spawn px py r vx vy hreach ih =>
    rename_i s0
    rcases createBacterium_cases s0 px py r vx vy with hc | ⟨w0, hI, hw, hc⟩
    · rw [show (createBacterium s0 px py r vx vy).2 = s0 from by rw [hc]]
      exact ih
    · obtain ⟨ihB, ihC, ihN, ihLt, _⟩ := ih
      have hBody : engineBodyIds s0 = w0.bodies.map Prod.fst := by
        unfold engineBodyIds
        rw [hw]
      have hCol : engineColliderIds s0 = w0.colliders.map Prod.fst := by
        unfold engineColliderIds
        rw [hw]
      have hB2 : s0.rigidBodies.map Prod.fst = w0.bodies.map Prod.fst := by
        have h1 := ihB
        rw [hBody] at h1
        simpa [registryIds] using h1
      have hC2 : s0.rigidBodies.map Prod.fst = w0.colliders.map Prod.fst := by
        have h1 := ihC
        rw [hCol] at h1
        simpa [registryIds] using h1
      have hN2 : (s0.rigidBodies.map Prod.fst).Nodup := by
        simpa [registryIds] using ihN
      have hLt2 : ∀ i ∈ s0.rigidBodies.map Prod.fst, i < s0.nextBodyId := by
        intro i hi
        exact ihLt i (by simpa [registryIds] using hi)
      rw [congrArg Prod.snd hc]
      refine ⟨?_, ?_, ?_, ?_, fun hcontr => nomatch hI ▸ hcontr⟩
      · show (s0.rigidBodies ++
            [(s0.nextBodyId, ({ length := r * 2 } : Entry))]).map Prod.fst =
          (w0.bodies ++
            [(s0.nextBodyId,
              ({ x := px, y := py, vx := vx * 5, vy := vy * 5 } :
                BodyState))]).map Prod.fst
        rw [List.map_append, List.map_append, hB2]
        rfl
      · show (s0.rigidBodies ++
            [(s0.nextBodyId, ({ length := r * 2 } : Entry))]).map Prod.fst =
          (w0.colliders ++ [(s0.nextBodyId, r * 2)]).map Prod.fst
        rw [List.map_append, List.map_append, hC2]
        rfl
      · show ((s0.rigidBodies ++
            [(s0.nextBodyId, ({ length := r * 2 } : Entry))]).map
              Prod.fst).Nodup
        rw [List.map_append]
        refine List.Nodup.append hN2 (by simp) ?_
        intro i hi hj
        have hlt := hLt2 i hi
        have : i = s0.nextBodyId := by simpa using hj
        omega
      · intro i hi
        show i < s0.nextBodyId + 1
        have hi2 : i ∈ (s0.rigidBodies ++
            [(s0.nextBodyId, ({ length := r * 2 } : Entry))]).map Prod.fst :=
          hi
        rw [List.map_append] at hi2
        rcases List.mem_append.mp hi2 with hi3 | hi3
        · have := hLt2 i hi3
          omega
        · have : i = s0.nextBodyId := by simpa using hi3
          omega
  | tick f hreach ih =>
    rename_i s0
    rcases updateSimulation_cases f s0 with hc | ⟨hI, hP, hW, hc⟩
    · rw [hc]
      exact ih
    · obtain ⟨ihB, ihC, ihN, ihLt, _⟩ := ih
      rw [hc]
      have hg := growBacteria_ids s0
      have hs := stepWorld_ids f (growBacteria s0)
      have hn : (stepWorld f (growBacteria s0)).nextBodyId = s0.nextBodyId := by
        rw [show (stepWorld f (growBacteria s0)).nextBodyId =
          (growBacteria s0).nextBodyId from rfl, growBacteria_nextId]
      have hi : (stepWorld f (growBacteria s0)).inited = true := by
        rw [show (stepWorld f (growBacteria s0)).inited =
          (growBacteria s0).inited from rfl, growBacteria_inited, hI]
      refine ⟨?_, ?_, ?_, ?_, fun hcontr => nomatch hi ▸ hcontr⟩
      · rw [hs.1, hg.1, hs.2.1, hg.2.1]
        exact ihB
      · rw [hs.1, hg.1, hs.2.2, hg.2.2]
        exact ihC
      · rw [hs.1, hg.1]
        exact ihN
      · intro i hmem
        rw [hs.1, hg.1] at hmem
        rw [hn]
        exact ihLt i hmem
  | bounds width height hreach ih =>
    rename_i s0
    by_cases hI : s0.inited = true
    · cases hw : s0.world with
      | none =>
        have : handleBoundaries width height noFail noFail s0 = s0 := by
          obtain ⟨i, p, rb, n, wo⟩ := s0
          simp only at hw
          subst hw
          cases i <;> rfl
        rw [this]
        exact ih
      | some w0 =>
        obtain ⟨ihB, ihC, ihN, ihLt, _⟩ := ih
        rw [handleBoundaries_eq width height noFail noFail s0 w0 hI hw ihN]
        have hBody : engineBodyIds s0 = w0.bodies.map Prod.fst := by
          unfold engineBodyIds
          rw [hw]
        have hCol : engineColliderIds s0 = w0.colliders.map Prod.fst := by
          unfold engineColliderIds
          rw [hw]
        have hRreg : registryIds (evictedState width height noFail noFail s0
            w0 (registryIds s0)) = (registryIds s0).filter
              (fun k => keepEntry width height noFail noFail w0
                (registryIds s0) k) :=
          map_fst_filter_key s0.rigidBodies _
        refine ⟨?_, ?_, ?_, ?_,
          fun hcontr => nomatch hI ▸ hcontr⟩
        · rw [hRreg]
          rw [show engineBodyIds (evictedState width height noFail noFail s0
              w0 (registryIds s0)) = (w0.bodies.filter
                (fun p => keepEntry width height noFail noFail w0
                  (registryIds s0) p.1)).map Prod.fst from rfl,
            map_fst_filter_key]
          rw [← hBody, ← ihB]
        · rw [hRreg]
          rw [show engineColliderIds (evictedState width height noFail noFail
              s0 w0 (registryIds s0)) = (w0.colliders.filter
                (fun p => keepCol width height noFail w0
                  (registryIds s0) p.1)).map Prod.fst from rfl,
            map_fst_filter_key]
          rw [← hCol, ← ihC]
          exact List.filter_congr
            (fun k _ => keepEntry_noFail width height w0 (registryIds s0) k)
        · rw [hRreg]
          exact ihN.filter _
        · intro i hmem
          rw [hRreg] at hmem
          have := List.mem_filter.mp hmem
          exact ihLt i this.1
    · have h0 : s0.inited = false := by
        cases hh : s0.inited
        · rfl
        · exact absurd hh hI
      rw [handleBoundaries_uninit width height noFail noFail s0 h0]
      exact ih
  | toggle hreach ih =>
    rename_i s0
    obtain ⟨ihB, ihC, ihN, ihLt, ihD⟩ := ih
    exact ⟨ihB, ihC, ihN, ihLt, fun hcontr => by
      obtain ⟨hrb, hwo⟩ := ihD hcontr
      exact ⟨hrb, hwo⟩⟩
  | teardown fC fB hreach ih =>
    rename_i s0
    by_cases hI : s0.inited = true
    · cases hw : s0.world with
      | none =>
        have : destroySimulation fC fB s0 = s0 := by
          obtain ⟨i, p, rb, n, wo⟩ := s0
          simp only at hw
          subst hw
          cases i <;> rfl
        rw [this]
        exact ih
      | some w0 =>
        rw [destroySimulation_inited fC fB s0 w0 hI hw]
        exact ⟨rfl, rfl, List.nodup_nil, by simp [registryIds],
          fun _ => ⟨rfl, rfl⟩⟩
    · have h0 : s0.inited = false := by
        cases hh : s0.inited
        · rfl
        · exact absurd hh hI
      rw [destroySimulation_uninit fC fB s0 h0]
      exact ih

/-- Claim C1: in every reachable state, the list of registry entry ids, the
list of ids with a live rigid body in the engine, and the list of ids with
a live collider in the engine are identical: no entry outlives its handle
and no handle exists without a registry entry. -/
theorem C1_registry_engine_agree (s : SimState) (h : Reachable s) :
    registryIds s = engineBodyIds s ∧ registryIds s = engineColliderIds s :=
  ⟨(reachable_invFull s h).1, (reachable_invFull s h).2.1⟩

/-- Claim C1, witness: the agreement evaluated in the concrete reachable
state with one spawned bacterium. -/
theorem C1_registry_engine_agree_witness :
    registryIds sampleOne = engineBodyIds sampleOne ∧
    registryIds sampleOne = engineColliderIds sampleOne :=
  C1_registry_engine_agree sampleOne
    (Reachable.spawn 1 1 1 0 0 Reachable.start)

/-- A growth iteration on an id without an entry is a no-op. -/
theorem growOne_of_lookup_none (s : SimState) (id : Nat)
    (h : s.rigidBodies.lookup id = none) : growOne s id = s := by
  unfold growOne
  rw [h]

/-- A growth iteration on an id with an entry, written out. -/
theorem growOne_of_lookup_some (s : SimState) (id : Nat) (e : Entry)
    (h : s.rigidBodies.lookup id = some e) :
    growOne s id =
      { s with
        rigidBodies := updateVal s.rigidBodies id
          (fun _ => { length := e.length * growthFactor })
        world := s.world.map (fun w =>
          { bodies := updateVal w.bodies id
              (fun b => { b with vx := 0, vy := 0 })
            colliders := updateVal w.colliders id
              (fun _ => e.length * growthFactor) }) } := by
  unfold growOne
  rw [h]

/-- Growth iterations of two ids commute: the per entry update reads and
writes only the fields of its own entry. -/
theorem growOne_comm (s : SimState) (a b : Nat) :
    growOne (growOne s a) b = growOne (growOne s b) a := by
  by_cases hab : a = b
  · subst hab
    rfl
  · have hab' : b ≠ a := fun h => hab h.symm
    cases ha : s.rigidBodies.lookup a with
    | none =>
      rw [growOne_of_lookup_none s a ha]
      cases hb : s.rigidBodies.lookup b with
      | none =>
        rw [growOne_of_lookup_none s b hb, growOne_of_lookup_none s a ha]
      | some eb =>
        have h3 : (growOne s b).rigidBodies.lookup a = none := by
          rw [growOne_of_lookup_some s b eb hb]
          dsimp only
          rw [lookup_updateVal_ne _ _ _ _ hab]
          exact ha
        rw [growOne_of_lookup_none (growOne s b) a h3]
    | some ea =>
      cases hb : s.rigidBodies.lookup b with
      | none =>
        rw [growOne_of_lookup_none s b hb]
        have h3 : (growOne s a).rigidBodies.lookup b = none := by
          rw [growOne_of_lookup_some s a ea ha]
          dsimp only
          rw [lookup_updateVal_ne _ _ _ _ hab']
          exact hb
        rw [growOne_of_lookup_none (growOne s a) b h3]
      | some eb =>
        have hlb : (growOne s a).rigidBodies.lookup b = some eb := by
          rw [growOne_of_lookup_some s a ea ha]
          dsimp only
          rw [lookup_updateVal_ne _ _ _ _ hab']
          exact hb
        have hla : (growOne s b).rigidBodies.lookup a = some ea := by
          rw [growOne_of_lookup_some s b eb hb]
          dsimp only
          rw [lookup_updateVal_ne _ _ _ _ hab]
          exact ha
        rw [growOne_of_lookup_some s a ea ha] at hlb ⊢
        rw [growOne_of_lookup_some s b eb hb] at hla ⊢
        rw [growOne_of_lookup_some _ b eb hlb,
          growOne_of_lookup_some _ a ea hla]
        dsimp only
        rw [updateVal_comm s.rigidBodies a b _ _ hab, Option.map_map,
          Option.map_map]
        congr 2
        funext w
        dsimp only [Function.comp]
        rw [updateVal_comm w.bodies a b _ _ hab,
          updateVal_comm w.colliders a b _ _ hab]

/-- Claim C9: the per tick growth pass is the fold of the per entry update
over the registry keys, and folding the per entry update over any
permutation of a list of ids gives the same state: growth order across
entries does not affect the outcome. -/
theorem C9_growth_order_independent (s : SimState) (l1 l2 : List Nat)
    (h : l1.Perm l2) :
    growBacteria s = (registryIds s).foldl growOne s ∧
    l1.foldl growOne s = l2.foldl growOne s := by
  refine ⟨rfl, ?_⟩
  induction h generalizing s with
  | nil => rfl
  | cons x h ih =>
    rw [List.foldl_cons, List.foldl_cons]
    exact ih _
  | swap x y l =>
    rw [List.foldl_cons, List.foldl_cons, List.foldl_cons, List.foldl_cons,
      growOne_comm]
  | trans h1 h2 ih1 ih2 => exact (ih1 s).trans (ih2 s)

/-- Claim C9, witness: folding the growth update over the two orders of the
two keys of a concrete two bacterium state gives the same state. -/
theorem C9_growth_order_independent_witness :
    growBacteria sampleTwo = (registryIds sampleTwo).foldl growOne sampleTwo ∧
    ([0, 1] : List Nat).foldl growOne sampleTwo =
      ([1, 0] : List Nat).foldl growOne sampleTwo :=
  C9_growth_order_independent sampleTwo [0, 1] [1, 0] (by decide)

/-- A growth iteration leaves the registry entry, the engine body and the
engine collider of every other id alone. -/
theorem growOne_lookup_ne (s : SimState) (id k : Nat) (h : k ≠ id) :
    regLookup (growOne s id) k = regLookup s k ∧
    bodyLookup (growOne s id) k = bodyLookup s k ∧
    colLookup (growOne s id) k = colLookup s k := by
  cases hl : s.rigidBodies.lookup id with
  | none =>
    rw [growOne_of_lookup_none s id hl]
    exact ⟨rfl, rfl, rfl⟩
  | some e =>
    rw [growOne_of_lookup_some s id e hl]
    refine ⟨?_, ?_, ?_⟩
    · show (updateVal s.rigidBodies id
        (fun _ => { length := e.length * growthFactor })).lookup k =
        s.rigidBodies.lookup k
      exact lookup_updateVal_ne _ _ _ _ h
    · unfold bodyLookup
      cases s.world with
      | none => rfl
      | some w =>
        show (updateVal w.bodies id
            (fun b => { b with vx := 0, vy := 0 })).lookup k =
          w.bodies.lookup k
        exact lookup_updateVal_ne _ _ _ _ h
    · unfold colLookup
      cases s.world with
      | none => rfl
      | some w =>
        show (updateVal w.colliders id
            (fun _ => e.length * growthFactor)).lookup k =
          w.colliders.lookup k
        exact lookup_updateVal_ne _ _ _ _ h

/-- A fold of growth iterations over ids not containing k leaves the three
lookups of k alone. -/
theorem foldl_growOne_lookup_ne (ids : List Nat) :
    ∀ (s : SimState) (k : Nat), k ∉ ids →
    regLookup (ids.foldl growOne s) k = regLookup s k ∧
    bodyLookup (ids.foldl growOne s) k = bodyLookup s k ∧
    colLookup (ids.foldl growOne s) k = colLookup s k := by
  induction ids with
  | nil => intro s k _; exact ⟨rfl, rfl, rfl⟩
  | cons a rest ih =>
    intro s k hk
    have hka : k ≠ a := fun h => hk (h ▸ List.mem_cons_self a rest)
    have hkr : k ∉ rest := fun h => hk (List.mem_cons_of_mem a h)
    have h1 := growOne_lookup_ne s a k hka
    have h2 := ih (growOne s a) k hkr
    exact ⟨h2.1.trans h1.1, h2.2.1.trans h1.2.1, h2.2.2.trans h1.2.2⟩

/-- The effect of the whole growth pass on the entry stored under id, for
distinct registry keys: the length is multiplied by the growth factor, the
collider half height is set to the new length, and the body velocity is
zeroed; nothing else of the body changes. -/
theorem growBacteria_lookup (s : SimState) (id : Nat) (e : Entry)
    (hnd : (registryIds s).Nodup) (he : regLookup s id = some e) :
    regLookup (growBacteria s) id =
      some { length := e.length * growthFactor } ∧
    colLookup (growBacteria s) id =
      (colLookup s id).map (fun _ => e.length * growthFactor) ∧
    bodyLookup (growBacteria s) id =
      (bodyLookup s id).map (fun b => { b with vx := 0, vy := 0 }) := by
  have hid : id ∈ registryIds s := by
    have := lookup_some_mem_fst s.rigidBodies id e he
    simpa [registryIds] using this
  obtain ⟨l1, l2, hsplit⟩ := List.append_of_mem hid
  have hnd2 : (l1 ++ id :: l2).Nodup := hsplit ▸ hnd
  have hid1 : id ∉ l1 := by
    intro hmem
    exact List.disjoint_of_nodup_append hnd2 hmem (List.mem_cons_self id l2)
  have hid2 : id ∉ l2 :=
    (List.nodup_cons.mp (List.nodup_append.mp hnd2).2.1).1
  have hfold : growBacteria s = l2.foldl growOne (growOne (l1.foldl growOne s) id) := by
    show (registryIds s).foldl growOne s = _
    rw [hsplit, List.foldl_append, List.foldl_cons]
  set t := l1.foldl growOne s with ht
  have hpre := foldl_growOne_lookup_ne l1 s id hid1
  have hte2 : t.rigidBodies.lookup id = some e := by
    have := hpre.1
    rw [he] at this
    exact this
  have hmid1 : regLookup (growOne t id) id =
      some { length := e.length * growthFactor } := by
    rw [growOne_of_lookup_some t id e hte2]
    show (updateVal t.rigidBodies id
      (fun _ => { length := e.length * growthFactor })).lookup id = _
    rw [lookup_updateVal_eq, hte2]
    rfl
  have hmid2 : colLookup (growOne t id) id =
      (colLookup s id).map (fun _ => e.length * growthFactor) := by
    rw [growOne_of_lookup_some t id e hte2]
    have hcol : colLookup t id = colLookup s id := hpre.2.2
    unfold colLookup at hcol ⊢
    cases hwt : t.world with
    | none =>
      rw [hwt] at hcol
      rw [← hcol]
      rfl
    | some w =>
      rw [hwt] at hcol
      rw [← hcol]
      show (updateVal w.colliders id
        (fun _ => e.length * growthFactor)).lookup id = _
      rw [lookup_updateVal_eq]
  have hmid3 : bodyLookup (growOne t id) id =
      (bodyLookup s id).map (fun b => { b with vx := 0, vy := 0 }) := by
    rw [growOne_of_lookup_some t id e hte2]
    have hbod : bodyLookup t id = bodyLookup s id := hpre.2.1
    unfold bodyLookup at hbod ⊢
    cases hwt : t.world with
    | none =>
      rw [hwt] at hbod
      rw [← hbod]
      rfl
    | some w =>
      rw [hwt] at hbod
      rw [← hbod]
      show (updateVal w.bodies id
        (fun b => { b with vx := 0, vy := 0 })).lookup id = _
      rw [lookup_updateVal_eq]
  have hpost := foldl_growOne_lookup_ne l2 (growOne t id) id hid2
  rw [hfold]
  exact ⟨hpost.1.trans hmid1, hpost.2.2.trans hmid2, hpost.2.1.trans hmid3⟩

/-- A tick on an initialized, live, unpaused state grows and then steps. -/
theorem updateSimulation_active (f : Nat → BodyState → BodyState)
    (s : SimState) (hI : s.inited = true) (hP : s.isPaused = false)
    (hW : s.world.isSome = true) :
    updateSimulation f s = stepWorld f (growBacteria s) := by
  obtain ⟨i, p, rb, n, w⟩ := s
  cases i
  · exact absurd hI (by simp)
  · cases p
    · cases w with
      | none => exact absurd hW (by simp)
      | some w0 => rfl
    · exact absurd hP (by simp)

/-- The engine step leaves the registry and the colliders alone. -/
theorem stepWorld_lookups (f : Nat → BodyState → BodyState) (s : SimState)
    (k : Nat) :
    regLookup (stepWorld f s) k = regLookup s k ∧
    colLookup (stepWorld f s) k = colLookup s k := by
  refine ⟨rfl, ?_⟩
  unfold colLookup stepWorld
  cases s.world <;> rfl

/-- Claim C5: on an initialized, unpaused state with a live world, a tick
grows and then steps: the registry length of every entry becomes exactly
its previous value times the 1.001 growth factor, the collider half height
of the entry is set to that new length, the growth pass zeroes the linear
velocity of the body of the entry before the engine step runs, and, for a
nonnegative length, the length does not decrease. -/
theorem C5_tick_growth (s : SimState) (f : Nat → BodyState → BodyState)
    (id : Nat) (e : Entry) (hI : s.inited = true) (hP : s.isPaused = false)
    (hW : s.world.isSome = true) (hInv : Inv s)
    (he : regLookup s id = some e) :
    updateSimulation f s = stepWorld f (growBacteria s) ∧
    regLookup (updateSimulation f s) id =
      some { length := e.length * growthFactor } ∧
    colLookup (updateSimulation f s) id = some (e.length * growthFactor) ∧
    (∀ b, bodyLookup (growBacteria s) id = some b →
      b.vx = 0 ∧ b.vy = 0) ∧
    (0 ≤ e.length → e.length ≤ e.length * growthFactor) := by
  obtain ⟨hB, hC, hN⟩ := hInv
  have hgl := growBacteria_lookup s id e hN he
  have hact := updateSimulation_active f s hI hP hW
  have hid : id ∈ registryIds s := by
    have := lookup_some_mem_fst s.rigidBodies id e he
    simpa [registryIds] using this
  refine ⟨hact, ?_, ?_, ?_, ?_⟩
  · rw [hact, (stepWorld_lookups f (growBacteria s) id).1, hgl.1]
  · rw [hact, (stepWorld_lookups f (growBacteria s) id).2, hgl.2.1]
    have hcs : (colLookup s id).isSome = true := by
      have hidc : id ∈ engineColliderIds s := hC ▸ hid
      unfold engineColliderIds at hidc
      unfold colLookup
      cases hw : s.world with
      | none =>
        rw [hw] at hidc
        exact absurd hidc (by simp)
      | some w =>
        rw [hw] at hidc
        exact mem_fst_lookup_isSome w.colliders id hidc
    obtain ⟨c, hc⟩ := Option.isSome_iff_exists.mp hcs
    rw [hc]
    rfl
  · intro b hb
    rw [hgl.2.2] at hb
    cases hbs : bodyLookup s id with
    | none =>
      rw [hbs] at hb
      exact absurd hb (by simp)
    | some b0 =>
      rw [hbs] at hb
      have : ({ b0 with vx := 0, vy := 0 } : BodyState) = b := by
        simpa using hb
      rw [← this]
      exact ⟨rfl, rfl⟩
  · intro hpos
    have hg : (1 : ℚ) ≤ growthFactor := by norm_num [growthFactor]
    calc e.length = e.length * 1 := (mul_one _).symm
      _ ≤ e.length * growthFactor := by
        exact mul_le_mul_of_nonneg_left hg hpos

/-- The two bacterium state, unpaused by one pause call. -/
def sampleTwoLive : SimState := pause sampleTwo

/-- Claim C5, witness: in the concrete unpaused two bacterium state, one
tick multiplies the length of entry 0 (initially 1 * 2) by the growth
factor, resizes its collider to the new length, the growth pass zeroes its
velocity, and the length does not decrease. -/
theorem C5_tick_growth_witness :
    updateSimulation (fun _ b => b) sampleTwoLive =
      stepWorld (fun _ b => b) (growBacteria sampleTwoLive) ∧
    regLookup (updateSimulation (fun _ b => b) sampleTwoLive) 0 =
      some { length := (1 * 2 : ℚ) * growthFactor } ∧
    colLookup (updateSimulation (fun _ b => b) sampleTwoLive) 0 =
      some ((1 * 2 : ℚ) * growthFactor) ∧
    (({ x := 1, y := 1, vx := 0, vy := 0 } : BodyState).vx = 0 ∧
      ({ x := 1, y := 1, vx := 0, vy := 0 } : BodyState).vy = 0) ∧
    ((1 * 2 : ℚ) ≤ (1 * 2 : ℚ) * growthFactor) := by
  have h := C5_tick_growth sampleTwoLive (fun _ b => b) 0 { length := 1 * 2 }
    (by decide) (by decide) (by decide)
    ⟨by decide, by decide, by decide⟩ (by rfl)
  exact ⟨h.1, h.2.1, h.2.2.1,
    h.2.2.2.1 { x := 1, y := 1, vx := 0, vy := 0 } (by rfl),
    h.2.2.2.2 (by norm_num)⟩

end AgeEnt
